import Mathlib

set_option autoImplicit false

namespace NtexMqtt

/-!
Shallow embedding of the MQTT 3.1.1 server framework sources
(`src/v3/selector.rs`, `src/v3/mod.rs`, and the behaviour exercised by
`tests/test_server.rs`).  Pure data and the selector's control flow are
translated directly from the Rust source; components whose implementation
files are not part of the sources (dispatcher, sink, codec, handshake) are
modelled from the specification, as marked in their doc comments.
-/

/-- Quality of service levels, `QoS` in the codec. -/
inductive QoS where
  | AtMostOnce
  | AtLeastOnce
  | ExactlyOnce
deriving DecidableEq, Repr

/-- Numeric level of a QoS value (AtMostOnce = 0, AtLeastOnce = 1, ExactlyOnce = 2). -/
def QoS.toNat : QoS → Nat
  | .AtMostOnce => 0
  | .AtLeastOnce => 1
  | .ExactlyOnce => 2

/-- Decoded CONNECT payload (`codec::Connect`); only the fields the selector
and tests touch are carried. -/
structure Connect where
  client_id : String
  clean_session : Bool
  keep_alive : Nat
deriving DecidableEq, Repr

/-- Subscription return code (`codec::SubscribeReturnCode`). -/
inductive SubscribeReturnCode where
  | Success (q : QoS)
  | Failure
deriving DecidableEq, Repr

/-- Tagged variant over the MQTT 3.1.1 packet types (`codec::Packet`),
restricted to the variants the selector and the tests exercise. -/
inductive Packet where
  | connect (c : Connect)
  | publish (dup : Bool) (retain : Bool) (qos : QoS) (topic : String)
      (packet_id : Option Nat) (payload : List Nat)
  | publishAck (packet_id : Nat)
  | subscribe (packet_id : Nat) (topic_filters : List (String × QoS))
  | subscribeAck (packet_id : Nat) (status : List SubscribeReturnCode)
  | unsubscribe (packet_id : Nat) (topic_filters : List String)
  | unsubscribeAck (packet_id : Nat)
  | pingRequest
  | pingResponse
  | disconnect
deriving DecidableEq, Repr

/-- MQTT wire packet-type number of a packet (`Packet::packet_type`). -/
def Packet.packet_type : Packet → Nat
  | .connect _ => 1
  | .publish _ _ _ _ _ _ => 3
  | .publishAck _ => 4
  | .subscribe _ _ => 8
  | .subscribeAck _ _ => 9
  | .unsubscribe _ _ => 10
  | .unsubscribeAck _ => 11
  | .pingRequest => 12
  | .pingResponse => 13
  | .disconnect => 14

/-- Whether a packet is a CONNECT packet. -/
def Packet.is_connect : Packet → Bool
  | .connect _ => true
  | _ => false

/-- Protocol-level error (`error::ProtocolError`), restricted to the variants
the sources exercise. -/
inductive ProtocolError where
  | unexpectedPacket (packet_type : Nat) (reason : String)
  | protocolViolation (reason : String)
  | readTimeout
  | keepAliveTimeout
deriving DecidableEq, Repr

/-- Handshake-phase error (`error::HandshakeError`); an `io::Error` payload is
modelled by its message string. -/
inductive HandshakeError where
  | timeout
  | disconnected (err : Option String)
  | protocol (e : ProtocolError)
deriving DecidableEq, Repr

/-- Top-level server error (`error::MqttError`). -/
inductive MqttError (E : Type) where
  | service (e : E)
  | handshake (e : HandshakeError)
deriving DecidableEq, Repr

/-! ## Codec configuration and the selector (`src/v3/selector.rs`) -/

/-- Codec state visible to the selector: the configured maximum inbound frame
size (`mqtt::Codec`; `0` means unlimited). -/
structure Codec where
  max_size : Nat
deriving DecidableEq, Repr

/-- `Codec::default()`: max size starts at `0` (unlimited). -/
def Codec.default : Codec := ⟨0⟩

/-- `Codec::set_max_size`. -/
def Codec.set_max_size (c : Codec) (size : Nat) : Codec := { c with max_size := size }

/-- Frame-size error raised by the decoder. -/
inductive DecodeError where
  | maxSizeExceeded
  | decodeFailed
deriving DecidableEq, Repr

/-- Modelled from the spec: the codec's max-size enforcement (spec section 4.1;
the codec implementation file is not among the sources, only its configuration
through the selector is).  Decoding a frame whose total framed size exceeds the
configured max fails with `MaxSizeExceeded` when the max is nonzero; a max of
`0` disables the limit. -/
def Codec.check_size (c : Codec) (frame_size : Nat) : Except DecodeError Unit :=
  if c.max_size ≠ 0 ∧ c.max_size < frame_size then .error .maxSizeExceeded else .ok ()

/-- The transient handshake record (`Handshake`); the raw I/O and the shared
state handles carry no data the selector inspects, so only the parsed CONNECT
packet and its encoded size are carried. -/
structure Handshake where
  packet : Connect
  size : Nat
deriving DecidableEq, Repr

/-- `Handshake::new(connect, size, io, shared)`. -/
def Handshake.new (c : Connect) (size : Nat) : Handshake := ⟨c, size⟩

/-- Result of calling one boxed server variant on a handshake
(`Either<Handshake, ()>` on success: `Left` hands the handshake back,
declining it; `Right` means the variant accepted and installed the session). -/
inductive SrvResult (E : Type) where
  | declined (h : Handshake)
  | accepted
  | failed (e : MqttError E)

/-- The candidate loop of `SelectorService::call` (selector.rs lines 298-313):
try each server on the handshake in order; a declining server returns the
handshake for the next candidate; the first acceptor ends the loop; if every
candidate declines the call fails with
`Disconnected("Cannot handle CONNECT packet")`.  The `Nat` index accumulates
the trace of invoked candidates (by position) alongside the result. -/
def callServers {E : Type} :
    List (Handshake → SrvResult E) → Handshake → Nat →
      List Nat × Except (MqttError E) Unit
  | [], _, _ =>
    ([], .error (.handshake (.disconnected (some "Cannot handle CONNECT packet"))))
  | srv :: rest, item, i =>
    match srv item with
    | .failed e => ([i], .error e)
    | .accepted => ([i], .ok ())
    | .declined item2 =>
      let r := callServers rest item2 (i + 1)
      (i :: r.1, r.2)

/-- `SelectorService` state: the ordered server variants (each modelled by its
response function on a handshake), plus the configuration copied from the
`Selector`. -/
structure SelectorService (E : Type) where
  servers : List (Handshake → SrvResult E)
  max_size : Nat
  connect_timeout : Nat

/-- The codec constructed at the start of `SelectorService::call`
(selector.rs lines 261-262): a default codec with the service's `max_size`
installed, before the first packet is read. -/
def SelectorService.codec_for {E : Type} (s : SelectorService E) : Codec :=
  Codec.set_max_size Codec.default s.max_size

/-- Outcome of the single guarded first read in `SelectorService::call`
(the `select` of the connect deadline against `io.recv`): either the deadline
elapsed, or the receive failed, or the peer closed (recv returned `None`), or
exactly one packet was decoded together with its frame size. -/
inductive ReadOutcome where
  | timedOut
  | ioError (e : String)
  | eof
  | packet (p : Packet) (size : Nat)

/-- Classification of the first-read outcome (selector.rs lines 265-296):
deadline elapsed gives `HandshakeError::Timeout`; a receive error is wrapped
into a handshake error; `None` from recv gives `Disconnected(None)`; a decoded
non-CONNECT packet gives the `unexpected_packet` protocol error; only a CONNECT
packet proceeds. -/
def readFirstPacket {E : Type} (r : ReadOutcome) :
    Except (MqttError E) (Connect × Nat) :=
  match r with
  | .timedOut => .error (.handshake .timeout)
  | .ioError e => .error (.handshake (.disconnected (some e)))
  | .eof => .error (.handshake (.disconnected none))
  | .packet (.connect c) size => .ok (c, size)
  | .packet p _ =>
    .error (.handshake (.protocol
      (.unexpectedPacket p.packet_type "MQTT-3.1.0-1: Expected CONNECT packet")))

/-- `SelectorService::call` (selector.rs lines 256-313): classify the first
read; on success build the handshake record and run the candidate loop.  The
first component is the trace of candidate indices invoked. -/
def SelectorService.call {E : Type} (s : SelectorService E) (r : ReadOutcome) :
    List Nat × Except (MqttError E) Unit :=
  match (readFirstPacket r : Except (MqttError E) (Connect × Nat)) with
  | .error e => ([], .error e)
  | .ok (c, size) => callServers s.servers (Handshake.new c size) 0

/-- The `Selector` builder (selector.rs lines 24-99). -/
structure Selector (E : Type) where
  servers : List (Handshake → SrvResult E)
  max_size : Nat
  connect_timeout : Nat

/-- `Selector::new()`: no variants, `max_size = 0`, connect timeout 10000 ms. -/
def Selector.new {E : Type} : Selector E := ⟨[], 0, 10000⟩

/-- `Selector::max_size(size)` builder method. -/
def Selector.set_max_size {E : Type} (s : Selector E) (size : Nat) : Selector E :=
  { s with max_size := size }

/-- `Selector::connect_timeout(timeout)` builder method. -/
def Selector.set_connect_timeout {E : Type} (s : Selector E) (t : Nat) : Selector E :=
  { s with connect_timeout := t }

/-- `Selector::variant(check, server)`: pushes the new candidate at the end of
the list, preserving addition order. -/
def Selector.variant {E : Type} (s : Selector E) (srv : Handshake → SrvResult E) :
    Selector E :=
  { s with servers := s.servers ++ [srv] }

/-- `Selector::create_service` (selector.rs lines 107-118): the service keeps
the variants in their addition order and copies the configuration. -/
def Selector.create_service {E : Type} (s : Selector E) : SelectorService E :=
  ⟨s.servers, s.max_size, s.connect_timeout⟩

/-! ## Polling model for `SelectorService` readiness -/

/-- Rust's `Poll`. -/
inductive Poll (A : Type) where
  | Ready (a : A)
  | Pending
deriving DecidableEq, Repr

/-- `Poll::is_ready`. -/
def Poll.is_ready {A : Type} : Poll A → Bool
  | .Ready _ => true
  | .Pending => false

/-- The loop body of `SelectorService::poll_ready` (selector.rs lines 205-215):
each variant's `poll_ready` result is consulted in order; the `?` operator
returns the first `Ready(Err(_))` immediately; a `Pending` variant clears the
`ready` flag but the loop continues; the service is ready only if the flag
survives every variant. -/
def poll_ready_loop {E : Type} :
    List (Poll (Except E Unit)) → Bool → Poll (Except E Unit)
  | [], ready => if ready then .Ready (.ok ()) else .Pending
  | r :: rest, ready =>
    match r with
    | .Ready (.error e) => .Ready (.error e)
    | .Ready (.ok _) => poll_ready_loop rest ready
    | .Pending => poll_ready_loop rest false

/-- `SelectorService::poll_ready`, given the poll results of the variant
services in order. -/
def SelectorService.poll_ready {E : Type} (polls : List (Poll (Except E Unit))) :
    Poll (Except E Unit) :=
  poll_ready_loop polls true

/-- `SelectorService::poll_shutdown` (selector.rs lines 217-227), given the
poll results of the variant services in order: the `ready` flag is and-ed with
`is_ready` of every variant, with no early exit. -/
def SelectorService.poll_shutdown (polls : List (Poll Unit)) : Poll Unit :=
  if polls.foldl (fun ready r => ready && r.is_ready) true then .Ready () else .Pending

/-! ## Dispatcher publish handling (modelled from the spec) -/

/-- Dispatcher configuration knobs relevant to inbound PUBLISH handling
(spec section 6: `max_qos`, `handle_qos_after_disconnect`). -/
structure DispatcherCfg where
  max_qos : QoS
  handle_qos_after_disconnect : Option QoS
deriving DecidableEq, Repr

/-- What the dispatcher does with one inbound PUBLISH. -/
inductive PublishAction where
  | violation
  | dropped
  | deliver
deriving DecidableEq, Repr

/-- Modelled from the spec: the dispatcher's decision for an inbound PUBLISH
(spec sections 4.3 and 6; the dispatcher implementation file is not among the
sources, only its test driver is).  The publish's qos is validated against
`max_qos` first; when the client has already sent DISCONNECT, the publish is
dropped unless `handle_qos_after_disconnect` is `Some q` with qos at most `q`,
in which case it continues to dispatch normally. -/
def dispatchPublish (cfg : DispatcherCfg) (client_disconnected : Bool) (q : QoS) :
    PublishAction :=
  if cfg.max_qos.toNat < q.toNat then .violation
  else if client_disconnected then
    match cfg.handle_qos_after_disconnect with
    | none => .dropped
    | some bound => if q.toNat ≤ bound.toNat then .deliver else .dropped
  else .deliver

/-- Observable effects of handling one inbound PUBLISH: whether the publish
handler was invoked, which acknowledgement packets were enqueued for it,
what protocol error (if any) went to the control handler, and whether a
shutdown was initiated. -/
structure PublishEffects where
  handler_invoked : Bool
  acks : List Packet
  control_error : Option ProtocolError
  shutdown : Bool
deriving DecidableEq, Repr

/-- Modelled from the spec: effects of one inbound PUBLISH (spec section 4.3).
A qos above `max_qos` raises `ProtocolViolation` on the control handler and
initiates shutdown, invoking no handler and writing no acknowledgement; a
dropped post-DISCONNECT publish has no effect at all; a delivered publish
invokes the handler and enqueues the acknowledgement its qos calls for. -/
def publishEffects (cfg : DispatcherCfg) (client_disconnected : Bool) (q : QoS)
    (packet_id : Option Nat) : PublishEffects :=
  match dispatchPublish cfg client_disconnected q with
  | .violation =>
    ⟨false, [], some (.protocolViolation "publish qos exceeds max qos"), true⟩
  | .dropped => ⟨false, [], none, false⟩
  | .deliver =>
    match q, packet_id with
    | .AtLeastOnce, some pid => ⟨true, [.publishAck pid], none, false⟩
    | _, _ => ⟨true, [], none, false⟩

/-! ## Handshake acknowledgement (modelled from the spec) -/

/-- CONNACK return code (`codec::ConnectAckReason`). -/
inductive ConnectAckReason where
  | ConnectionAccepted
  | UnacceptableProtocolVersion
  | IdentifierRejected
  | ServiceUnavailable
  | BadUserNameOrPassword
  | NotAuthorized
deriving DecidableEq, Repr

/-- Wire byte of a CONNACK return code (MQTT 3.1.1 table 3.1). -/
def ConnectAckReason.toByte : ConnectAckReason → Nat
  | .ConnectionAccepted => 0
  | .UnacceptableProtocolVersion => 1
  | .IdentifierRejected => 2
  | .ServiceUnavailable => 3
  | .BadUserNameOrPassword => 4
  | .NotAuthorized => 5

/-- Decoded CONNACK payload (`codec::ConnectAck`). -/
structure ConnectAck where
  session_present : Bool
  return_code : ConnectAckReason
deriving DecidableEq, Repr

/-- Outcome of the handshake handler (`HandshakeAck<St>`): either an accepted
session carrying the user state, or a rejection reason. -/
inductive HandshakeAck (St : Type) where
  | accepted (st : St)
  | rejected (reason : ConnectAckReason)

/-- `Handshake::bad_username_or_pwd`. -/
def Handshake.bad_username_or_pwd (St : Type) : HandshakeAck St :=
  .rejected .BadUserNameOrPassword

/-- `Handshake::identifier_rejected`. -/
def Handshake.identifier_rejected (St : Type) : HandshakeAck St :=
  .rejected .IdentifierRejected

/-- `Handshake::not_authorized`. -/
def Handshake.not_authorized (St : Type) : HandshakeAck St :=
  .rejected .NotAuthorized

/-- `Handshake::service_unavailable`. -/
def Handshake.service_unavailable (St : Type) : HandshakeAck St :=
  .rejected .ServiceUnavailable

/-- Modelled from the spec: the CONNACK written for a handshake handler
outcome (spec section 4.4 step 4; the handshake implementation file is not
among the sources): the handler-chosen reason with `session_present = false`
in every case, since this framework does not persist sessions. -/
def connackFor {St : Type} : HandshakeAck St → ConnectAck
  | .accepted _ => ⟨false, .ConnectionAccepted⟩
  | .rejected reason => ⟨false, reason⟩

/-- Client-side connect error (`client::ClientError`), restricted to the
variant the tests exercise. -/
inductive ClientError where
  | Ack (a : ConnectAck)
deriving DecidableEq, Repr

/-- Modelled from the spec: the client connector's handling of the received
CONNACK (test scenario (b); the client implementation file is not among the
sources): a non-accepted return code surfaces as `ClientError::Ack` carrying
the received CONNACK. -/
def clientProcessConnack (a : ConnectAck) : Except ClientError Unit :=
  if a.return_code = .ConnectionAccepted then .ok () else .error (.Ack a)

/-! ## The ack-ordering engine (modelled from the spec) -/

/-- One slot of the dispatcher's ack queue (spec section 4.3): the arrival
sequence number, the acknowledgement packet this slot will emit, and whether
the handler future spawned into the slot has completed. -/
structure Slot where
  seq : Nat
  ack : Packet
  ready : Bool
deriving DecidableEq, Repr

/-- The completion pump (spec section 4.3): emit and pop consecutive ready
slots from the head of the queue; a completed slot behind a pending one
waits.  Returns the emitted acknowledgements and the remaining queue. -/
def flushQueue : List Slot → List Packet × List Slot
  | [] => ([], [])
  | s :: rest =>
    if s.ready then
      let r := flushQueue rest
      (s.ack :: r.1, r.2)
    else ([], s :: rest)

/-- Dispatcher ack-ordering state: the FIFO of in-flight slots, the
acknowledgements written to the wire so far, and the next arrival sequence
number. -/
structure AckState where
  queue : List Slot
  output : List Packet
  nextSeq : Nat
deriving DecidableEq, Repr

/-- The dispatcher's initial ack-ordering state. -/
def AckState.init : AckState := ⟨[], [], 0⟩

/-- An event seen by the ack-ordering engine: the arrival of an
ack-requiring inbound packet (which enqueues a slot holding its future
acknowledgement), or the completion of the handler future spawned for the
arrival with the given sequence number. -/
inductive AckEv where
  | arrive (ack : Packet)
  | complete (seq : Nat)
deriving DecidableEq, Repr

/-- Modelled from the spec: one step of the ack-ordering engine (spec
section 4.3; the dispatcher implementation file is not among the sources).
An arrival appends a not-ready slot tagged with the next sequence number; a
completion marks its slot ready; after every event only the contiguous ready
prefix of the queue is flushed to the wire. -/
def AckState.step (st : AckState) : AckEv → AckState
  | .arrive a =>
    let r := flushQueue (st.queue ++ [⟨st.nextSeq, a, false⟩])
    ⟨r.2, st.output ++ r.1, st.nextSeq + 1⟩
  | .complete n =>
    let q := st.queue.map fun s => if s.seq = n then ⟨s.seq, s.ack, true⟩ else s
    let r := flushQueue q
    ⟨r.2, st.output ++ r.1, st.nextSeq⟩

/-- Run the ack-ordering engine over a list of events. -/
def AckState.run (st : AckState) : List AckEv → AckState
  | [] => st
  | e :: es => (st.step e).run es

/-- The acknowledgements carried by the arrivals of an event list, in
arrival order. -/
def arrivalAcks : List AckEv → List Packet
  | [] => []
  | .arrive a :: es => a :: arrivalAcks es
  | .complete _ :: es => arrivalAcks es

/-- The sequence numbers completed by an event list. -/
def completedSeqs : List AckEv → List Nat
  | [] => []
  | .arrive _ :: es => completedSeqs es
  | .complete n :: es => n :: completedSeqs es

/-- Well-formed event lists, relative to the next arrival sequence number and
the set of already completed sequence numbers: a completion names a slot that
has already arrived and completes it only once (each handler future exists
only after its packet arrived and completes exactly once). -/
def validEvents (nextSeq : Nat) (completed : List Nat) : List AckEv → Bool
  | [] => true
  | .arrive _ :: es => validEvents (nextSeq + 1) completed es
  | .complete n :: es =>
    decide (n < nextSeq) && !(completed.contains n) && validEvents nextSeq (n :: completed) es

/-- The completed-set accumulated by an event list on top of `completed`. -/
def completedAfter (completed : List Nat) : List AckEv → List Nat
  | [] => completed
  | .arrive _ :: es => completedAfter completed es
  | .complete n :: es => completedAfter (n :: completed) es

/-! ## Sink state (modelled from the spec) -/

/-- Sink state (spec section 3): the last issued packet-id, the in-flight
packet-ids in insertion order, the packet-ids whose blocking
`send_at_least_once` future is still awaited, the `closed` flag, the calls
made to the installed publish-ack observer `(packet_id, disconnected)` in
order, and the results delivered to completed blocking waiters
`(packet_id, disconnected)` in order. -/
structure SinkState where
  lastId : Nat
  inflight : List Nat
  waiters : List Nat
  closed : Bool
  observer_calls : List (Nat × Bool)
  completed_waiters : List (Nat × Bool)
deriving DecidableEq, Repr

/-- A fresh sink: no id issued yet, nothing in flight, open. -/
def SinkState.fresh : SinkState := ⟨0, [], [], false, [], []⟩

/-- The candidate after `c` in the packet-id scan: increment modulo 2^16,
skipping 0. -/
def nextCand (c : Nat) : Nat := if 65535 ≤ c then 1 else c + 1

/-- Modelled from the spec: packet-id allocation (spec section 4.2): scan
forward from the candidate for the first value not present in the in-flight
list; `none` when all 2^16 − 1 ids are taken (the fuel bounds the scan by the
id-space size). -/
def allocId (inflight : List Nat) : Nat → Nat → Option Nat
  | 0, _ => none
  | fuel + 1, c => if c ∈ inflight then allocId inflight fuel (nextCand c) else some c

/-- Failure of a sink send operation. -/
inductive SendError where
  | disconnected
  | backpressureFull
deriving DecidableEq, Repr

/-- Modelled from the spec: `send_at_least_once_no_block` (spec section 4.2;
the sink implementation file is not among the sources).  Fails with
`Disconnected` on a closed sink and `BackpressureFull` when the in-flight map
is full; otherwise allocates the next free packet-id, records it in flight,
writes the PUBLISH, and returns the id immediately — completion is reported
only through the installed ack observer callback, so no waiter is
registered. -/
def SinkState.send_at_least_once_no_block (st : SinkState) :
    Except SendError (Nat × SinkState) :=
  if st.closed then .error .disconnected
  else
    match allocId st.inflight 65535 (nextCand st.lastId) with
    | none => .error .backpressureFull
    | some id =>
      .ok (id, { st with lastId := id, inflight := st.inflight ++ [id] })

/-- Modelled from the spec: the synchronous part of `send_at_least_once`
(spec section 4.2): allocate a packet-id, record a waiter, write the PUBLISH;
the returned future resolves only when the PUBACK for the id is observed. -/
def SinkState.send_at_least_once (st : SinkState) :
    Except SendError (Nat × SinkState) :=
  if st.closed then .error .disconnected
  else
    match allocId st.inflight 65535 (nextCand st.lastId) with
    | none => .error .backpressureFull
    | some id =>
      .ok (id,
        { st with
          lastId := id
          inflight := st.inflight ++ [id]
          waiters := st.waiters ++ [id] })

/-- Modelled from the spec: PUBACK receipt on the sink (spec section 4.2):
the waiter for the packet-id, if any, is completed with `Ok(packet_id)`; the
observer, if installed, is called with `(packet_id, disconnected = false)`;
the id leaves the in-flight map.  A PUBACK for an unknown id is a protocol
violation. -/
def SinkState.pkt_ack (st : SinkState) (id : Nat) : Except ProtocolError SinkState :=
  if id ∈ st.inflight then
    .ok
      { st with
        inflight := st.inflight.erase id
        waiters := st.waiters.erase id
        completed_waiters :=
          if id ∈ st.waiters then st.completed_waiters ++ [(id, false)]
          else st.completed_waiters
        observer_calls := st.observer_calls ++ [(id, false)] }
  else .error (.protocolViolation "unexpected PublishAck packet")

/-- Run `k` sequential `send_at_least_once_no_block` calls, collecting the
allocated packet-ids in order; a failing send stops the run. -/
def runNoBlock : Nat → SinkState → List Nat × SinkState
  | 0, st => ([], st)
  | k + 1, st =>
    match st.send_at_least_once_no_block with
    | .error _ => ([], st)
    | .ok (id, st2) =>
      let r := runNoBlock k st2
      (id :: r.1, r.2)

/-! ## Frame-read-rate policing (modelled from the spec) -/

/-- Frame read rate configuration (spec sections 4.3 and 6), with the two
durations in milliseconds: `(min_rate, max_stall, min_chunk)`. -/
structure ReadRateCfg where
  min_rate : Nat
  max_stall : Nat
  min_chunk : Nat
deriving DecidableEq, Repr

/-- Bytes received in the half-open window `(lo, hi]` of a byte-arrival
schedule (a list of `(arrival time in ms, byte count)` pairs). -/
def bytesInWindow (sched : List (Nat × Nat)) (lo hi : Nat) : Nat :=
  ((sched.filter fun p => decide (lo < p.1 ∧ p.1 ≤ hi)).map Prod.snd).sum

/-- Modelled from the spec: frame-read-rate policing while a partial frame is
in progress (spec section 4.3; the timer implementation is not among the
sources).  Every `min_rate` milliseconds the dispatcher checks the bytes
received in the elapsed window: at least `min_chunk` bytes reset the stall
timer; fewer grow it by `min_rate`, and when it reaches `max_stall` a
`ReadTimeout` fires at that checkpoint's time, which is returned.  `none`
means no timeout within the simulated checkpoints (the fuel). -/
def readTimeoutAt (cfg : ReadRateCfg) (sched : List (Nat × Nat)) :
    Nat → Nat → Nat → Option Nat
  | 0, _, _ => none
  | fuel + 1, t, stall =>
    let t2 := t + cfg.min_rate
    if cfg.min_chunk ≤ bytesInWindow sched t t2 then
      readTimeoutAt cfg sched fuel t2 0
    else
      let stall2 := stall + cfg.min_rate
      if cfg.max_stall ≤ stall2 then some t2
      else readTimeoutAt cfg sched fuel t2 stall2

/-- The control-handler event produced by the read-rate policing: a
`ReadTimeout` protocol error at the firing time, if the schedule stalls. -/
def readRateOutcome (cfg : ReadRateCfg) (sched : List (Nat × Nat)) (fuel : Nat) :
    Option (Nat × ProtocolError) :=
  (readTimeoutAt cfg sched fuel 0 0).map fun t => (t, .readTimeout)

/-! ## Predicates and concrete fixtures used by the theorems -/

/-- A candidate server that declines every handshake (returns `Either::Left`
with some handshake for the next candidate). -/
def declinesAll {E : Type} (srv : Handshake → SrvResult E) : Prop :=
  ∀ h, ∃ h2, srv h = .declined h2

/-- A candidate server that accepts every handshake (returns
`Either::Right(())`, installing its session). -/
def acceptsAll {E : Type} (srv : Handshake → SrvResult E) : Prop :=
  ∀ h, srv h = .accepted

/-- Invariant tying an ack-ordering state to the acknowledgements that have
arrived and the handler futures that have completed: the wire output followed
by the queued acknowledgements is exactly the arrivals in order; queued slots
carry sequence numbers of past arrivals; a queued slot whose future completed
is marked ready; completed numbers name past arrivals; the queue's head is
never ready (the pump flushed it otherwise). -/
def AckInv (arrived : List Packet) (completed : List Nat) (st : AckState) : Prop :=
  st.nextSeq = arrived.length ∧
  st.output ++ st.queue.map Slot.ack = arrived ∧
  (∀ s ∈ st.queue, s.seq < st.nextSeq) ∧
  (∀ s ∈ st.queue, s.seq ∈ completed → s.ready = true) ∧
  (∀ n ∈ completed, n < st.nextSeq) ∧
  (∀ s, st.queue.head? = some s → s.ready = false)

/-- Test scenario (c) as an event list: PUBLISH(1, QoS1), SUBSCRIBE(2,
["topic1" QoS1]) and PUBLISH(3, QoS1) arrive back-to-back; the publish
handler sleeps, so the subscribe slot (sequence 1) completes first. -/
def scenarioAckEvents : List AckEv :=
  [.arrive (.publishAck 1),
   .arrive (.subscribeAck 2 [.Success .AtLeastOnce]),
   .arrive (.publishAck 3),
   .complete 1, .complete 0, .complete 2]

/-- A concrete always-declining candidate server. -/
def declTestSrv : Handshake → SrvResult Unit := fun h => .declined h

/-- A concrete always-accepting candidate server. -/
def accTestSrv : Handshake → SrvResult Unit := fun _ => .accepted

/-- A concrete handshake record. -/
def testHandshake : Handshake := ⟨⟨"user", true, 30⟩, 20⟩

/-- A concrete selector service with no candidates and default configuration. -/
def testService : SelectorService Unit := ⟨[], 0, 10000⟩

/-- Test scenario (f)'s byte-arrival schedule: 5 bytes at once, 10 more after
100 ms, 12 more after a further 1 s, then silence. -/
def scenarioSchedule : List (Nat × Nat) := [(0, 5), (100, 10), (1100, 12)]

/-! ## Helper lemmas -/

theorem publishEffects_handler_invoked (cfg : DispatcherCfg) (d : Bool) (q : QoS)
    (pid : Option Nat) :
    (publishEffects cfg d q pid).handler_invoked =
      decide (dispatchPublish cfg d q = .deliver) := by
  unfold publishEffects
  cases h : dispatchPublish cfg d q with
  | violation => simp [h]
  | dropped => simp [h]
  | deliver => cases q <;> cases pid <;> simp [h]

theorem poll_ready_loop_ready_iff {E : Type} :
    ∀ (polls : List (Poll (Except E Unit))) (ready : Bool),
      poll_ready_loop polls ready = .Ready (.ok ()) ↔
        (ready = true ∧ ∀ p ∈ polls, p = .Ready (.ok ())) := by
  intro polls
  induction polls with
  | nil => intro ready; cases ready <;> simp [poll_ready_loop]
  | cons p rest ih =>
    intro ready
    cases p with
    | Pending => simp [poll_ready_loop, ih, List.forall_mem_cons]
    | Ready r =>
      cases r with
      | error e => simp [poll_ready_loop, List.forall_mem_cons]
      | ok u => cases u; simp [poll_ready_loop, ih, List.forall_mem_cons]

theorem poll_shutdown_foldl (polls : List (Poll Unit)) :
    ∀ b : Bool,
      polls.foldl (fun ready r => ready && r.is_ready) b = (b && polls.all Poll.is_ready) := by
  induction polls with
  | nil => intro b; simp
  | cons p rest ih => intro b; simp [List.all_cons, ih, Bool.and_assoc]

theorem Poll.is_ready_unit_iff : ∀ p : Poll Unit, p.is_ready = true ↔ p = .Ready ()
  | .Ready () => by simp [Poll.is_ready]
  | .Pending => by simp [Poll.is_ready]

theorem callServers_all_decline {E : Type} :
    ∀ (servers : List (Handshake → SrvResult E)) (item : Handshake) (i : Nat),
      (∀ s ∈ servers, declinesAll s) →
      callServers servers item i =
        (List.range' i servers.length,
          .error (.handshake (.disconnected (some "Cannot handle CONNECT packet")))) := by
  intro servers
  induction servers with
  | nil => intro item i _; rfl
  | cons srv rest ih =>
    intro item i hd
    obtain ⟨h2, hh⟩ := hd srv (List.mem_cons_self _ _) item
    simp only [callServers, hh]
    rw [ih h2 (i + 1) fun s hs => hd s (List.mem_cons_of_mem _ hs)]
    simp [List.range'_succ]

theorem callServers_first_accept {E : Type} :
    ∀ (pre : List (Handshake → SrvResult E)) (acc : Handshake → SrvResult E)
      (post : List (Handshake → SrvResult E)) (item : Handshake) (i : Nat),
      (∀ s ∈ pre, declinesAll s) → acceptsAll acc →
      callServers (pre ++ acc :: post) item i = (List.range' i (pre.length + 1), .ok ()) := by
  intro pre
  induction pre with
  | nil =>
    intro acc post item i _ ha
    simp [callServers, ha item, List.range'_succ]
  | cons srv rest ih =>
    intro acc post item i hd ha
    obtain ⟨h2, hh⟩ := hd srv (List.mem_cons_self _ _) item
    simp only [List.cons_append, callServers, hh]
    simp only [List.append_eq]
    rw [ih acc post h2 (i + 1) (fun s hs => hd s (List.mem_cons_of_mem _ hs)) ha]
    simp [List.range'_succ]

theorem allocId_not_mem (l : List Nat) (c : Nat) (fuel : Nat) (h : c ∉ l) (hf : 0 < fuel) :
    allocId l fuel c = some c := by
  cases fuel with
  | zero => exact absurd hf (Nat.lt_irrefl 0)
  | succ f => simp [allocId, h]

theorem runNoBlock_consecutive :
    ∀ (k j : Nat) (w : List Nat) (oc cw : List (Nat × Bool)),
      j + k ≤ 65535 →
      (runNoBlock k ⟨j, List.range' 1 j, w, false, oc, cw⟩).1 = List.range' (j + 1) k := by
  intro k
  induction k with
  | zero => intro j w oc cw _; rfl
  | succ k ih =>
    intro j w oc cw hk
    have hj : ¬65535 ≤ j := by omega
    have hcand : nextCand j = j + 1 := by simp [nextCand, hj]
    have hmem : (j + 1) ∉ List.range' 1 j := by
      rw [List.mem_range'_1]; omega
    have hsend :
        (⟨j, List.range' 1 j, w, false, oc, cw⟩ : SinkState).send_at_least_once_no_block =
          .ok (j + 1, ⟨j + 1, List.range' 1 j ++ [j + 1], w, false, oc, cw⟩) := by
      unfold SinkState.send_at_least_once_no_block
      rw [hcand]
      rw [allocId_not_mem _ _ _ hmem (by norm_num)]
      rfl
    have hr : List.range' 1 j ++ [j + 1] = List.range' 1 (j + 1) := by
      rw [List.range'_1_concat, Nat.add_comm 1 j]
    rw [hr] at hsend
    simp only [runNoBlock, hsend]
    rw [ih (j + 1) w oc cw (by omega)]
    rw [List.range'_succ]

theorem flushQueue_acks : ∀ q : List Slot,
    (flushQueue q).1 ++ (flushQueue q).2.map Slot.ack = q.map Slot.ack := by
  intro q
  induction q with
  | nil => rfl
  | cons s rest ih =>
    by_cases h : s.ready = true
    · simp [flushQueue, h, ih]
    · simp [flushQueue, h]

theorem flushQueue_sub : ∀ (q : List Slot) (s : Slot), s ∈ (flushQueue q).2 → s ∈ q := by
  intro q
  induction q with
  | nil => intro s h; simp [flushQueue] at h
  | cons a rest ih =>
    intro s h
    by_cases ha : a.ready = true
    · simp only [flushQueue, ha, if_true] at h
      exact List.mem_cons_of_mem _ (ih s h)
    · simp only [flushQueue, ha, if_false, Bool.false_eq_true] at h
      exact h

theorem flushQueue_head : ∀ (q : List Slot) (s : Slot),
    (flushQueue q).2.head? = some s → s.ready = false := by
  intro q
  induction q with
  | nil => intro s h; simp [flushQueue] at h
  | cons a rest ih =>
    intro s h
    by_cases ha : a.ready = true
    · simp only [flushQueue, ha, if_true] at h
      exact ih s h
    · simp only [flushQueue, ha, if_false, Bool.false_eq_true, List.head?_cons,
        Option.some.injEq] at h
      rw [← h]
      exact Bool.not_eq_true _ ▸ ha

theorem flushQueue_all_ready : ∀ q : List Slot,
    (∀ s ∈ q, s.ready = true) → (flushQueue q).2 = [] := by
  intro q
  induction q with
  | nil => intro _; rfl
  | cons a rest ih =>
    intro h
    have ha : a.ready = true := h a (List.mem_cons_self _ _)
    simp only [flushQueue, ha, if_true]
    exact ih fun s hs => h s (List.mem_cons_of_mem _ hs)

theorem ackStep_arrive (st : AckState) (arrived : List Packet) (completed : List Nat)
    (a : Packet) (hinv : AckInv arrived completed st) :
    AckInv (arrived ++ [a]) completed (st.step (.arrive a)) := by
  obtain ⟨h1, h2, h3, h4, h5, h6⟩ := hinv
  simp only [AckState.step]
  refine ⟨?_, ?_, ?_, ?_, ?_, ?_⟩
  · simp [h1]
  · rw [List.append_assoc, flushQueue_acks]
    simp [List.map_append, ← List.append_assoc, h2]
  · intro s hs
    rcases List.mem_append.mp (flushQueue_sub _ s hs) with h | h
    · exact Nat.lt_succ_of_lt (h3 s h)
    · rw [List.mem_singleton] at h
      subst h
      exact Nat.lt_succ_self _
  · intro s hs hc
    rcases List.mem_append.mp (flushQueue_sub _ s hs) with h | h
    · exact h4 s h hc
    · rw [List.mem_singleton] at h
      subst h
      exact absurd (h5 _ hc) (Nat.lt_irrefl _)
  · intro n hn
    exact Nat.lt_succ_of_lt (h5 n hn)
  · intro s hs
    exact flushQueue_head _ s hs

theorem ackStep_complete (st : AckState) (arrived : List Packet) (completed : List Nat)
    (n : Nat) (hinv : AckInv arrived completed st) (hn : n < st.nextSeq) :
    AckInv arrived (n :: completed) (st.step (.complete n)) := by
  obtain ⟨h1, h2, h3, h4, h5, h6⟩ := hinv
  have hack : ∀ s : Slot,
      (if s.seq = n then (⟨s.seq, s.ack, true⟩ : Slot) else s).ack = s.ack := by
    intro s
    by_cases h : s.seq = n <;> simp [h]
  have hseq : ∀ s : Slot,
      (if s.seq = n then (⟨s.seq, s.ack, true⟩ : Slot) else s).seq = s.seq := by
    intro s
    by_cases h : s.seq = n <;> simp [h]
  have hmapack :
      (st.queue.map fun s => if s.seq = n then (⟨s.seq, s.ack, true⟩ : Slot) else s).map
          Slot.ack = st.queue.map Slot.ack := by
    rw [List.map_map]
    exact List.map_congr_left fun s _ => hack s
  simp only [AckState.step]
  refine ⟨h1, ?_, ?_, ?_, ?_, ?_⟩
  · rw [List.append_assoc, flushQueue_acks, hmapack, h2]
  · intro s hs
    obtain ⟨s0, hs0, he⟩ := List.mem_map.mp (flushQueue_sub _ s hs)
    have hlt := h3 s0 hs0
    rw [← he, hseq s0]
    exact hlt
  · intro s hs hc
    obtain ⟨s0, hs0, he⟩ := List.mem_map.mp (flushQueue_sub _ s hs)
    by_cases hcase : s0.seq = n
    · rw [← he]
      simp [hcase]
    · rw [← he] at hc ⊢
      simp only [hcase, if_false] at hc ⊢
      rcases List.mem_cons.mp hc with h | h
      · exact absurd h hcase
      · exact h4 s0 hs0 h
  · intro m hm
    rcases List.mem_cons.mp hm with h | h
    · rw [h]; exact hn
    · exact h5 m h
  · intro s hs
    exact flushQueue_head _ s hs

theorem mem_completedAfter : ∀ (evs : List AckEv) (completed : List Nat) (m : Nat),
    m ∈ completedAfter completed evs ↔ m ∈ completedSeqs evs ∨ m ∈ completed := by
  intro evs
  induction evs with
  | nil => intro completed m; simp [completedAfter, completedSeqs]
  | cons e es ih =>
    intro completed m
    cases e with
    | arrive a => simp [completedAfter, completedSeqs, ih]
    | complete n =>
      simp [completedAfter, completedSeqs, ih]
      tauto

theorem ackRun_inv :
    ∀ (evs : List AckEv) (st : AckState) (arrived : List Packet) (completed : List Nat),
      AckInv arrived completed st →
      validEvents st.nextSeq completed evs = true →
      AckInv (arrived ++ arrivalAcks evs) (completedAfter completed evs) (st.run evs) := by
  intro evs
  induction evs with
  | nil =>
    intro st arrived completed hinv _
    simpa [arrivalAcks, completedAfter, AckState.run] using hinv
  | cons e es ih =>
    intro st arrived completed hinv hv
    cases e with
    | arrive a =>
      rw [validEvents] at hv
      have step := ackStep_arrive st arrived completed a hinv
      have := ih (st.step (.arrive a)) (arrived ++ [a]) completed step hv
      simpa [AckState.run, arrivalAcks, completedAfter, List.append_assoc] using this
    | complete n =>
      rw [validEvents] at hv
      simp only [Bool.and_eq_true, decide_eq_true_eq] at hv
      obtain ⟨⟨hn, _⟩, hrest⟩ := hv
      have step := ackStep_complete st arrived completed n hinv hn
      have := ih (st.step (.complete n)) arrived (n :: completed) step hrest
      simpa [AckState.run, arrivalAcks, completedAfter] using this

theorem ackInit_inv : AckInv [] [] AckState.init := by
  refine ⟨rfl, rfl, ?_, ?_, ?_, ?_⟩ <;> simp [AckState.init]

/-! ## Claim theorems -/

/-- C2: an inbound PUBLISH whose qos exceeds the configured `max_qos` makes
the dispatcher deliver a `ProtocolViolation` to the control handler and
initiate shutdown; no acknowledgement is written for the packet and the
publish handler is not invoked (whatever the disconnect state). -/
theorem max_qos_violation_c2 :
    ∀ (cfg : DispatcherCfg) (d : Bool) (q : QoS) (pid : Option Nat),
      cfg.max_qos.toNat < q.toNat →
      publishEffects cfg d q pid =
        ⟨false, [], some (.protocolViolation "publish qos exceeds max qos"), true⟩ := by
  intro cfg d q pid h
  simp [publishEffects, dispatchPublish, h]

/-- Witness for C2 at the configuration of test scenario (e): server max qos
`AtMostOnce`, inbound PUBLISH of qos `AtLeastOnce`. -/
theorem max_qos_violation_c2_witness :
    QoS.AtMostOnce.toNat < QoS.AtLeastOnce.toNat ∧
    publishEffects ⟨.AtMostOnce, none⟩ false .AtLeastOnce (some 3) =
      ⟨false, [], some (.protocolViolation "publish qos exceeds max qos"), true⟩ :=
  ⟨by decide, max_qos_violation_c2 ⟨.AtMostOnce, none⟩ false .AtLeastOnce (some 3) (by decide)⟩

/-- C3: for a PUBLISH (within the server's max qos) arriving after the
client's DISCONNECT, `handle_qos_after_disconnect = none` drops it without
invoking the publish handler, and `= some q` delivers it to the publish
handler exactly when its qos is at most `q`. -/
theorem handle_qos_after_disconnect_c3 :
    ∀ (cfg : DispatcherCfg) (q : QoS) (pid : Option Nat),
      q.toNat ≤ cfg.max_qos.toNat →
      ((cfg.handle_qos_after_disconnect = none →
          (publishEffects cfg true q pid).handler_invoked = false) ∧
        (∀ b, cfg.handle_qos_after_disconnect = some b →
          ((publishEffects cfg true q pid).handler_invoked = true ↔
            q.toNat ≤ b.toNat))) := by
  intro cfg q pid h
  have hm : ¬cfg.max_qos.toNat < q.toNat := Nat.not_lt.mpr h
  refine ⟨fun hn => ?_, fun b hb => ?_⟩
  · rw [publishEffects_handler_invoked]
    simp [dispatchPublish, hm, hn]
  · rw [publishEffects_handler_invoked]
    by_cases hq : q.toNat ≤ b.toNat <;> simp [dispatchPublish, hm, hb, hq]

/-- Counterexample to C3 as stated: with `max_qos = AtMostOnce` and
`handle_qos_after_disconnect = Some ExactlyOnce`, a post-DISCONNECT PUBLISH
at QoS1 has qos within the `Some` bound, yet the publish handler is not
invoked — the dispatcher validates against max-qos first and raises a
`ProtocolViolation` instead, so "delivered exactly when qos ≤ q" fails
without the max-qos restriction. -/
theorem handle_qos_after_disconnect_c3_counterexample :
    QoS.AtLeastOnce.toNat ≤ QoS.ExactlyOnce.toNat ∧
    (publishEffects ⟨.AtMostOnce, some .ExactlyOnce⟩ true .AtLeastOnce
        (some 1)).handler_invoked = false ∧
    publishEffects ⟨.AtMostOnce, some .ExactlyOnce⟩ true .AtLeastOnce (some 1) =
      ⟨false, [], some (.protocolViolation "publish qos exceeds max qos"), true⟩ :=
  ⟨by decide, rfl, rfl⟩

/-- Witness for C3: qos `AtMostOnce` within bound `AtMostOnce` after
disconnect is delivered to the publish handler. -/
theorem handle_qos_after_disconnect_c3_witness :
    QoS.AtMostOnce.toNat ≤ QoS.AtLeastOnce.toNat ∧
    (publishEffects ⟨.AtLeastOnce, some .AtMostOnce⟩ true .AtMostOnce none).handler_invoked
      = true :=
  ⟨by decide,
    ((handle_qos_after_disconnect_c3 ⟨.AtLeastOnce, some .AtMostOnce⟩ .AtMostOnce none
      (by decide)).2 .AtMostOnce rfl).mpr (by decide)⟩

/-- C5: the handshake reads one packet under the connect deadline and
classifies the outcome: an elapsed deadline is a handshake `Timeout`; a
decoded non-CONNECT packet is the `UnexpectedPacket` protocol error with no
candidate server consulted (empty trace); a closed peer is `Disconnected`;
only a CONNECT packet proceeds to the candidate servers. -/
theorem handshake_first_read_c5 :
    (∀ (E : Type) (s : SelectorService E),
        s.call .timedOut = ([], .error (.handshake .timeout))) ∧
    (∀ (E : Type) (s : SelectorService E) (p : Packet) (size : Nat),
        p.is_connect = false →
        s.call (.packet p size) =
          ([], .error (.handshake (.protocol (.unexpectedPacket p.packet_type
            "MQTT-3.1.0-1: Expected CONNECT packet"))))) ∧
    (∀ (E : Type) (s : SelectorService E),
        s.call .eof = ([], .error (.handshake (.disconnected none)))) ∧
    (∀ (E : Type) (s : SelectorService E) (c : Connect) (size : Nat),
        s.call (.packet (.connect c) size) =
          callServers s.servers (Handshake.new c size) 0) := by
  refine ⟨fun E s => rfl, fun E s p size h => ?_, fun E s => rfl, fun E s c size => rfl⟩
  cases p
  case connect c => simp [Packet.is_connect] at h
  all_goals rfl

/-- Witness for C5 at a decoded PINGREQ as the first packet. -/
theorem handshake_first_read_c5_witness :
    Packet.pingRequest.is_connect = false ∧
    testService.call (.packet .pingRequest 2) =
      ([], .error (.handshake (.protocol (.unexpectedPacket 12
        "MQTT-3.1.0-1: Expected CONNECT packet")))) :=
  ⟨rfl, (handshake_first_read_c5.2.1 Unit testService .pingRequest 2 rfl).trans rfl⟩

/-- C6: each handshake rejection constructor produces a CONNACK with
`session_present = false` and the matching return code and wire byte
(`bad_username_or_pwd` 0x04, `identifier_rejected` 0x02, `not_authorized`
0x05, `service_unavailable` 0x03), and the connecting client observes it as
`ClientError::Ack` carrying those fields. -/
theorem connect_reject_c6 :
    (connackFor (Handshake.bad_username_or_pwd Unit) = ⟨false, .BadUserNameOrPassword⟩ ∧
      ConnectAckReason.BadUserNameOrPassword.toByte = 4 ∧
      clientProcessConnack ⟨false, .BadUserNameOrPassword⟩ =
        .error (.Ack ⟨false, .BadUserNameOrPassword⟩)) ∧
    (connackFor (Handshake.identifier_rejected Unit) = ⟨false, .IdentifierRejected⟩ ∧
      ConnectAckReason.IdentifierRejected.toByte = 2 ∧
      clientProcessConnack ⟨false, .IdentifierRejected⟩ =
        .error (.Ack ⟨false, .IdentifierRejected⟩)) ∧
    (connackFor (Handshake.not_authorized Unit) = ⟨false, .NotAuthorized⟩ ∧
      ConnectAckReason.NotAuthorized.toByte = 5 ∧
      clientProcessConnack ⟨false, .NotAuthorized⟩ =
        .error (.Ack ⟨false, .NotAuthorized⟩)) ∧
    (connackFor (Handshake.service_unavailable Unit) = ⟨false, .ServiceUnavailable⟩ ∧
      ConnectAckReason.ServiceUnavailable.toByte = 3 ∧
      clientProcessConnack ⟨false, .ServiceUnavailable⟩ =
        .error (.Ack ⟨false, .ServiceUnavailable⟩)) :=
  ⟨⟨rfl, rfl, rfl⟩, ⟨rfl, rfl, rfl⟩, ⟨rfl, rfl, rfl⟩, ⟨rfl, rfl, rfl⟩⟩

/-- C7: decoding a frame larger than a nonzero `max_size` fails with
`MaxSizeExceeded` (and only then); `max_size = 0` disables the limit; the
selector installs its configured `max_size` on the fresh codec used for the
first read, so the bound applies to the CONNECT frame too. -/
theorem max_size_c7 :
    (∀ m n : Nat,
        Codec.check_size ⟨m⟩ n = .error .maxSizeExceeded ↔ m ≠ 0 ∧ m < n) ∧
    (∀ n : Nat, Codec.check_size ⟨0⟩ n = .ok ()) ∧
    (∀ (E : Type) (s : Selector E) (size : Nat),
        ((s.set_max_size size).create_service).codec_for = ⟨size⟩) := by
  refine ⟨fun m n => ?_, fun n => ?_, fun E s size => rfl⟩
  · unfold Codec.check_size
    split_ifs with h <;> simp [h]
  · unfold Codec.check_size
    simp

/-- Witness for C7: a frame of size 11 against a max of 10. -/
theorem max_size_c7_witness :
    ((10 : Nat) ≠ 0 ∧ (10 : Nat) < 11) ∧
    Codec.check_size ⟨10⟩ 11 = .error .maxSizeExceeded :=
  ⟨by decide, (max_size_c7.1 10 11).mpr (by decide)⟩

/-- C10: the selector's `poll_ready` is `Ready(Ok)` exactly when every
variant service's poll is, and `poll_shutdown` completes exactly when every
variant's has; one pending or failing variant keeps the selector from being
ready. -/
theorem selector_poll_conj_c10 :
    (∀ (E : Type) (polls : List (Poll (Except E Unit))),
        SelectorService.poll_ready polls = .Ready (.ok ()) ↔
          ∀ p ∈ polls, p = .Ready (.ok ())) ∧
    (∀ polls : List (Poll Unit),
        SelectorService.poll_shutdown polls = .Ready () ↔
          ∀ p ∈ polls, p = .Ready ()) := by
  constructor
  · intro E polls
    rw [SelectorService.poll_ready, poll_ready_loop_ready_iff]
    simp
  · intro polls
    unfold SelectorService.poll_shutdown
    rw [poll_shutdown_foldl]
    simp only [Bool.true_and]
    by_cases h : polls.all Poll.is_ready = true
    · rw [if_pos h]
      simp only [List.all_eq_true, Poll.is_ready_unit_iff] at h
      simpa using h
    · rw [if_neg h]
      simp only [List.all_eq_true, Poll.is_ready_unit_iff] at h
      simp [h]

/-- Witness for C10 at a single ready variant. -/
theorem selector_poll_conj_c10_witness :
    SelectorService.poll_ready ([.Ready (.ok ())] : List (Poll (Except Unit Unit))) =
      .Ready (.ok ()) :=
  (selector_poll_conj_c10.1 Unit [.Ready (.ok ())]).mpr (by simp)

/-- C4: on a valid CONNECT, the selector invokes its candidate servers in
addition order, stopping at the first acceptor (the trace is the index range
up to and including the acceptor, so later candidates are never consulted);
when every candidate declines, every candidate was tried in order and the
call fails with the handshake `Disconnected` error carrying
"Cannot handle CONNECT packet", installing no session. -/
theorem selector_order_c4 :
    (∀ (E : Type) (servers : List (Handshake → SrvResult E)) (item : Handshake),
        (∀ s ∈ servers, declinesAll s) →
        callServers servers item 0 =
          (List.range servers.length,
            .error (.handshake (.disconnected (some "Cannot handle CONNECT packet"))))) ∧
    (∀ (E : Type) (pre : List (Handshake → SrvResult E)) (acc : Handshake → SrvResult E)
        (post : List (Handshake → SrvResult E)) (item : Handshake),
        (∀ s ∈ pre, declinesAll s) → acceptsAll acc →
        callServers (pre ++ acc :: post) item 0 = (List.range (pre.length + 1), .ok ())) := by
  constructor
  · intro E servers item hd
    rw [callServers_all_decline servers item 0 hd, List.range_eq_range']
  · intro E pre acc post item hd ha
    rw [callServers_first_accept pre acc post item 0 hd ha, List.range_eq_range']

/-- Witness for C4: one declining candidate followed by an accepting one;
both are invoked, in order, and the call succeeds. -/
theorem selector_order_c4_witness :
    (∀ s ∈ [declTestSrv], declinesAll s) ∧ acceptsAll accTestSrv ∧
    callServers [declTestSrv, accTestSrv] testHandshake 0 = ([0, 1], .ok ()) := by
  refine ⟨?_, fun h => rfl, ?_⟩
  · intro s hs
    rw [List.mem_singleton] at hs
    subst hs
    exact fun h => ⟨h, rfl⟩
  · have h := selector_order_c4.2 Unit [declTestSrv] accTestSrv [] testHandshake
      (fun s hs => by
        rw [List.mem_singleton] at hs
        subst hs
        exact fun h2 => ⟨h2, rfl⟩)
      fun h2 => rfl
    exact h.trans rfl

/-- C8: from a fresh sink, sequential `send_at_least_once_no_block` calls
allocate the consecutive packet-ids 1, 2, … (each returned synchronously,
with the PUBACK still outstanding), and in the scenario of test (g) — two
no-block publishes then an awaited `send_at_least_once` — the observer
callback has received `(1, false)` and `(2, false)`, and the awaited
publish's waiter (id 3) is still unresolved, before the PUBACK for id 3 is
processed. -/
theorem sink_noblock_c8 :
    (∀ k : Nat, k ≤ 65535 → (runNoBlock k SinkState.fresh).1 = List.range' 1 k) ∧
    (SinkState.fresh.send_at_least_once_no_block =
        .ok (1, ⟨1, [1], [], false, [], []⟩) ∧
      (⟨1, [1], [], false, [], []⟩ : SinkState).send_at_least_once_no_block =
        .ok (2, ⟨2, [1, 2], [], false, [], []⟩) ∧
      (⟨2, [1, 2], [], false, [], []⟩ : SinkState).send_at_least_once =
        .ok (3, ⟨3, [1, 2, 3], [3], false, [], []⟩) ∧
      (⟨3, [1, 2, 3], [3], false, [], []⟩ : SinkState).pkt_ack 1 =
        .ok ⟨3, [2, 3], [3], false, [(1, false)], []⟩ ∧
      (⟨3, [2, 3], [3], false, [(1, false)], []⟩ : SinkState).pkt_ack 2 =
        .ok ⟨3, [3], [3], false, [(1, false), (2, false)], []⟩ ∧
      (⟨3, [3], [3], false, [(1, false), (2, false)], []⟩ : SinkState).pkt_ack 3 =
        .ok ⟨3, [], [], false, [(1, false), (2, false), (3, false)], [(3, false)]⟩) := by
  constructor
  · intro k hk
    exact runNoBlock_consecutive k 0 [] [] [] (by omega)
  · exact ⟨rfl, rfl, rfl, rfl, rfl, rfl⟩

/-- Witness for C8: three sequential no-block publishes allocate ids 1, 2, 3. -/
theorem sink_noblock_c8_witness :
    (3 : Nat) ≤ 65535 ∧ (runNoBlock 3 SinkState.fresh).1 = [1, 2, 3] :=
  ⟨by decide, (sink_noblock_c8.1 3 (by decide)).trans rfl⟩

/-- C9: under frame-read-rate policing, no timeout fires while every
`min_rate` window receives at least `min_chunk` bytes; and on test
scenario (f)'s schedule with configuration (1 s, 2 s, 10 bytes) the
`ReadTimeout` protocol error fires at 4000 ms — after the 2100 ms point
where the test last asserts no timeout, and within the final 2.1 s pause. -/
theorem frame_read_rate_c9 :
    (∀ (cfg : ReadRateCfg) (sched : List (Nat × Nat)) (fuel t stall : Nat),
        (∀ k, k < fuel →
          cfg.min_chunk ≤
            bytesInWindow sched (t + k * cfg.min_rate) (t + (k + 1) * cfg.min_rate)) →
        readTimeoutAt cfg sched fuel t stall = none) ∧
    (readRateOutcome ⟨1000, 2000, 10⟩ scenarioSchedule 10 = some (4000, .readTimeout) ∧
      2100 < 4000 ∧ 4000 ≤ 2100 + 2100) := by
  constructor
  · intro cfg sched fuel
    induction fuel with
    | zero => intro t stall _; rfl
    | succ fuel ih =>
      intro t stall h
      have h0 : cfg.min_chunk ≤ bytesInWindow sched t (t + cfg.min_rate) := by
        have := h 0 (Nat.succ_pos _)
        simpa using this
      simp only [readTimeoutAt]
      rw [if_pos h0]
      apply ih
      intro k hk
      have h2 := h (k + 1) (by omega)
      have e1 : t + (k + 1) * cfg.min_rate = t + cfg.min_rate + k * cfg.min_rate := by ring
      have e2 : t + (k + 1 + 1) * cfg.min_rate =
          t + cfg.min_rate + (k + 1) * cfg.min_rate := by ring
      rw [e1, e2] at h2
      exact h2
  · exact ⟨rfl, by norm_num, by norm_num⟩

/-- C1: for every well-formed event sequence in which each ack-requiring
inbound packet enqueues a slot and every handler future eventually completes
— in any order — the acknowledgements on the wire are exactly the arrivals in
arrival order; in particular, for scenario (c)'s events (PUBLISH(1, QoS1),
SUBSCRIBE(2, ["topic1" QoS1]), PUBLISH(3, QoS1) with the subscribe handler
finishing before the delayed publish handlers) the wire output is exactly
PUBACK(1), SUBACK(2, [Success(QoS1)]), PUBACK(3). -/
theorem ack_order_c1 :
    (∀ evs : List AckEv,
        validEvents 0 [] evs = true →
        (∀ k, k < (arrivalAcks evs).length → k ∈ completedSeqs evs) →
        (AckState.init.run evs).output = arrivalAcks evs) ∧
    (AckState.init.run scenarioAckEvents).output =
      [.publishAck 1, .subscribeAck 2 [.Success .AtLeastOnce], .publishAck 3] := by
  constructor
  · intro evs hv hc
    obtain ⟨h1, h2, h3, h4, h5, h6⟩ := ackRun_inv evs AckState.init [] [] ackInit_inv hv
    have hqnil : (AckState.init.run evs).queue = [] := by
      cases hq : (AckState.init.run evs).queue with
      | nil => rfl
      | cons s rest =>
        have hs : s ∈ (AckState.init.run evs).queue := by
          rw [hq]; exact List.mem_cons_self _ _
        have hlt : s.seq < (arrivalAcks evs).length := by
          have := h3 s hs
          rw [h1] at this
          simpa using this
        have hmem : s.seq ∈ completedAfter [] evs :=
          (mem_completedAfter evs [] s.seq).mpr (Or.inl (hc s.seq hlt))
        have hready := h4 s hs hmem
        have hnotready : s.ready = false := h6 s (by rw [hq]; rfl)
        rw [hready] at hnotready
        exact absurd hnotready (by simp)
    have hout := h2
    rw [hqnil] at hout
    simpa using hout
  · rfl

/-- Witness for C1 at scenario (c)'s event sequence. -/
theorem ack_order_c1_witness :
    (validEvents 0 [] scenarioAckEvents = true ∧
      ∀ k, k < (arrivalAcks scenarioAckEvents).length →
        k ∈ completedSeqs scenarioAckEvents) ∧
    (AckState.init.run scenarioAckEvents).output = arrivalAcks scenarioAckEvents :=
  ⟨⟨by decide, by decide⟩, ack_order_c1.1 scenarioAckEvents (by decide) (by decide)⟩

/-- Witness for C9: a schedule delivering 10 bytes in each of two windows is
not timed out. -/
theorem frame_read_rate_c9_witness :
    (∀ k, k < 2 →
      (10 : Nat) ≤ bytesInWindow [(500, 10), (1500, 10)] (0 + k * 1000) (0 + (k + 1) * 1000)) ∧
    readTimeoutAt ⟨1000, 2000, 10⟩ [(500, 10), (1500, 10)] 2 0 0 = none :=
  ⟨by decide,
    frame_read_rate_c9.1 ⟨1000, 2000, 10⟩ [(500, 10), (1500, 10)] 2 0 0 (by decide)⟩

end NtexMqtt
